import Mathlib

/-!
# Verification of the contract_sense core

A shallow embedding of the deterministic core of the repository:

* the domain classifier `detectContractDomain` (client Gemini module),
* the static `domainConfig` table and its lookup,
* the zod schemas `clauseSchema` / `contractAnalysisSchema` modelled as
  parse functions over a JavaScript-value type,
* the result assembly of `analyzeContract` (object literal with spread),
* the JSON round trip used by `storeAnalysis` / `useStoredAnalysis`,
* the `analysis-ids` recency list maintained by `storeAnalysis`.

JavaScript numbers are modelled as `Rat`, strings as `String`, and `Date`
objects as a dedicated constructor of the value type.
-/

/-! ## JavaScript values -/

/-- A JavaScript runtime value, as far as the analysed code distinguishes
them: JSON primitives, arrays, objects (ordered key/value lists) and `Date`
objects (which zod's `z.date()` accepts and `JSON.stringify` serialises). -/
inductive JsValue where
  | num (q : Rat)
  | str (s : String)
  | jsBool (b : Bool)
  | jsNull
  | arr (elems : List JsValue)
  | obj (fields : List (String × JsValue))
  | date (t : Rat)

/-- JavaScript property access `o[k]`: the value of the first binding of
key `k` (object keys are unique in JavaScript, so first = only). -/
def getField : List (String × JsValue) → String → Option JsValue
  | [], _ => none
  | (k, v) :: rest, key => if k = key then some v else getField rest key

/-! ## Domain classifier (`detectContractDomain`) -/

/-- ASCII word character, as in the regex class `\w` used by the `\b`
word-boundary assertions of the keyword patterns. -/
def isWordChar (c : Char) : Bool :=
  (('a' ≤ c && c ≤ 'z') || ('A' ≤ c && c ≤ 'Z') || ('0' ≤ c && c ≤ '9') || c == '_')

/-- The regex word boundary `\b` holds before position `i` of `text`:
start of string or a non-word character precedes (all keywords begin with a
word character). -/
def boundaryBefore (text : List Char) (i : Nat) : Bool :=
  i == 0 || !isWordChar (text.getD (i - 1) ' ')

/-- The regex word boundary `\b` holds after position `j` of `text`:
end of string or a non-word character follows (all keywords end with a
word character). -/
def boundaryAfter (text : List Char) (j : Nat) : Bool :=
  j == text.length || !isWordChar (text.getD j ' ')

/-- The keyword `kw` occurs verbatim at position `i` of `text` with word
boundaries on both sides. -/
def occursAt (text kw : List Char) (i : Nat) : Bool :=
  ((text.drop i).take kw.length == kw) && boundaryBefore text i
    && boundaryAfter text (i + kw.length)

/-- `text.match(/\b kw \b/)` is truthy: the keyword occurs somewhere. -/
def matchesWordBounded (text : List Char) (kw : String) : Bool :=
  (List.range (text.length + 1)).any (occursAt text kw.toList)

/-- `text.match(/\b(k1|k2|...)\b/)` is truthy: some keyword of the group
occurs with word boundaries. -/
def matchesGroup (text : List Char) (group : List String) : Bool :=
  group.any (matchesWordBounded text)

def financeKeywords : List String :=
  ["loan", "credit", "mortgage", "finance", "bank", "investment", "securities",
   "trading", "hedge fund", "private equity", "derivatives", "swap", "bond",
   "debt", "financing agreement"]

def realEstateKeywords : List String :=
  ["real estate", "property", "lease", "rental", "landlord", "tenant",
   "purchase agreement", "sale agreement", "property management",
   "commercial lease", "residential"]

def insuranceKeywords : List String :=
  ["insurance", "policy", "coverage", "premium", "claim", "liability insurance",
   "health insurance", "life insurance", "underwriting"]

def employmentKeywords : List String :=
  ["employment", "employee", "employer", "job", "salary", "benefits",
   "non-compete", "non-disclosure", "termination", "hiring", "hr",
   "human resources"]

def technologyKeywords : List String :=
  ["software", "technology", "saas", "api", "development", "programming",
   "data", "cloud", "hosting", "license", "intellectual property", "code"]

def healthcareKeywords : List String :=
  ["healthcare", "medical", "patient", "doctor", "hospital", "pharmaceutical",
   "clinical", "hipaa", "medical device", "treatment"]

def constructionKeywords : List String :=
  ["construction", "building", "contractor", "engineering", "architect",
   "project", "materials", "labor", "subcontractor"]

def vendorKeywords : List String :=
  ["vendor", "supplier", "procurement", "purchase order", "supply", "delivery",
   "goods", "materials", "distribution"]

def professionalKeywords : List String :=
  ["consulting", "professional services", "advisory", "legal services",
   "accounting", "audit", "tax"]

/-- `detectContractDomain` from the client Gemini module: lower-cases
`contractText + " " + title` and tests the keyword groups in source order,
returning the first match, or `"general"` when none matches. -/
def detectContractDomain (contractText : String) (title : String) : String :=
  let text := (contractText ++ " " ++ title).toList.map Char.toLower
  if matchesGroup text financeKeywords then "finance"
  else if matchesGroup text realEstateKeywords then "real_estate"
  else if matchesGroup text insuranceKeywords then "insurance"
  else if matchesGroup text employmentKeywords then "employment"
  else if matchesGroup text technologyKeywords then "technology"
  else if matchesGroup text healthcareKeywords then "healthcare"
  else if matchesGroup text constructionKeywords then "construction"
  else if matchesGroup text vendorKeywords then "vendor"
  else if matchesGroup text professionalKeywords then "professional"
  else "general"

/-- The priority order of the spec, as an explicit (tag, keyword group)
list: finance, real_estate, insurance, employment, technology, healthcare,
construction, vendor, professional. -/
def specOrderedGroups : List (String × List String) :=
  [("finance", financeKeywords),
   ("real_estate", realEstateKeywords),
   ("insurance", insuranceKeywords),
   ("employment", employmentKeywords),
   ("technology", technologyKeywords),
   ("healthcare", healthcareKeywords),
   ("construction", constructionKeywords),
   ("vendor", vendorKeywords),
   ("professional", professionalKeywords)]

/-- First-match classification over an ordered group list, `"general"`
when no group matches — the classifier as the spec words it. -/
def firstMatchClassify : List (String × List String) → List Char → String
  | [], _ => "general"
  | (name, g) :: rest, text =>
      if matchesGroup text g then name else firstMatchClassify rest text

/-- `classify` as described by the spec: lower-case the concatenation of
text and title and take the first matching group in the fixed priority
order, falling back to `"general"`. -/
def classifySpec (contractText : String) (title : String) : String :=
  firstMatchClassify specOrderedGroups ((contractText ++ " " ++ title).toList.map Char.toLower)

/-! ## Risk configuration table (`domainConfig`) -/

structure RiskThresholds where
  low : Nat
  medium : Nat
  high : Nat
deriving DecidableEq

structure DomainConfig where
  baseRisk : String
  penaltyMultiplier : Rat
  riskThresholds : RiskThresholds
  description : String
deriving DecidableEq

/-- The static `domainConfig` object of `analyzeContract`, keyed by domain
tag string. -/
def domainConfig : List (String × DomainConfig) :=
  [("finance",
    ⟨"medium-high", 1.2, ⟨30, 60, 80⟩,
     "Finance contracts require careful attention to regulatory compliance and financial exposure, while recognizing standard industry practices."⟩),
   ("real_estate",
    ⟨"medium-high", 1.1, ⟨30, 60, 80⟩,
     "Real estate contracts involve significant assets but often follow established industry standards and practices."⟩),
   ("insurance",
    ⟨"medium-high", 1.1, ⟨30, 60, 80⟩,
     "Insurance contracts involve risk transfer mechanisms that are often standardized within the industry."⟩),
   ("healthcare",
    ⟨"medium", 1.0, ⟨25, 55, 75⟩,
     "Healthcare contracts balance compliance requirements with practical operational needs."⟩),
   ("employment",
    ⟨"low-medium", 0.8, ⟨20, 50, 70⟩,
     "Employment contracts should be evaluated considering typical employment law protections and industry standards."⟩),
   ("technology",
    ⟨"medium", 0.9, ⟨25, 55, 75⟩,
     "Technology contracts should balance innovation needs with reasonable IP and service protections."⟩),
   ("construction",
    ⟨"medium", 1.0, ⟨25, 55, 75⟩,
     "Construction contracts involve project complexities but often follow established industry practices."⟩),
   ("vendor",
    ⟨"low-medium", 0.7, ⟨20, 45, 65⟩,
     "Vendor contracts are typically straightforward business arrangements with standard commercial terms."⟩),
   ("professional",
    ⟨"low-medium", 0.8, ⟨20, 50, 70⟩,
     "Professional service contracts are generally lower-risk with established service delivery patterns."⟩),
   ("general",
    ⟨"medium", 0.9, ⟨25, 50, 70⟩,
     "General business contracts evaluated with balanced risk assessment considering common business practices."⟩)]

/-- The ten domain tags of the data model. -/
def domainTags : List String :=
  ["finance", "real_estate", "insurance", "healthcare", "employment",
   "technology", "construction", "vendor", "professional", "general"]

/-- `resolve(domain)`: the property access `domainConfig[domain]` of the
source, `none` when the key is absent. -/
def resolve (d : String) : Option DomainConfig :=
  (domainConfig.find? (fun p => p.1 == d)).map Prod.snd

/-! ## The analysis record types (from the zod schemas, part `shared/schema`) -/

inductive RiskLevel where
  | low
  | medium
  | high
deriving DecidableEq

inductive Importance where
  | critical
  | important
  | recommended
deriving DecidableEq

structure Clause where
  id : String
  title : String
  content : String
  riskLevel : RiskLevel
  riskScore : Rat
  explanation : String
  suggestions : List String
  startIndex : Rat
  endIndex : Rat
deriving DecidableEq

structure KeyIssue where
  id : String
  title : String
  description : String
  riskLevel : RiskLevel
  clause : String
  suggestion : String
deriving DecidableEq

structure MissingProtection where
  id : String
  title : String
  description : String
  importance : Importance
  sampleClause : String
deriving DecidableEq

structure RiskBreakdown where
  payment : Rat
  liability : Rat
  termination : Rat
  confidentiality : Rat
  intellectual_property : Rat
deriving DecidableEq

structure ContractAnalysis where
  id : String
  title : String
  content : String
  riskScore : Rat
  clauses : List Clause
  keyIssues : List KeyIssue
  missingProtections : List MissingProtection
  riskBreakdown : RiskBreakdown
  plainLanguageSummary : String
  confidence : Rat
  analysisDate : Rat
deriving DecidableEq

/-! ## The zod schemas as parse functions

zod's `schema.parse(value)` checks the value against the declared shape
and returns the typed data; unknown object keys are stripped (the zod
default), and the first violated constraint yields an error naming the
field. `z.number().min(lo).max(hi)` rejects numbers outside `[lo, hi]`;
`z.date()` accepts only `Date` values. -/

/-- Look up a required field and validate it with `p`. -/
def reqField (o : List (String × JsValue)) (name : String)
    (p : JsValue → Except String α) : Except String α :=
  match getField o name with
  | some v => p v
  | none => Except.error (name ++ ": required")

/-- `z.string()` applied to the field value. -/
def asStr (name : String) : JsValue → Except String String
  | JsValue.str s => Except.ok s
  | _ => Except.error (name ++ ": expected string")

/-- `z.number()` applied to the field value. -/
def asNum (name : String) : JsValue → Except String Rat
  | JsValue.num q => Except.ok q
  | _ => Except.error (name ++ ": expected number")

/-- `z.number().min(lo).max(hi)` applied to the field value. -/
def asNumRange (lo hi : Rat) (name : String) : JsValue → Except String Rat
  | JsValue.num q =>
      if lo ≤ q ∧ q ≤ hi then Except.ok q
      else Except.error (name ++ ": out of range")
  | _ => Except.error (name ++ ": expected number")

/-- `z.enum(riskLevels)` applied to the field value. -/
def asRiskLevel (name : String) : JsValue → Except String RiskLevel
  | JsValue.str s =>
      if s = "low" then Except.ok RiskLevel.low
      else if s = "medium" then Except.ok RiskLevel.medium
      else if s = "high" then Except.ok RiskLevel.high
      else Except.error (name ++ ": invalid enum value")
  | _ => Except.error (name ++ ": invalid enum value")

/-- `z.enum(['critical','important','recommended'])` applied to the field
value. -/
def asImportance (name : String) : JsValue → Except String Importance
  | JsValue.str s =>
      if s = "critical" then Except.ok Importance.critical
      else if s = "important" then Except.ok Importance.important
      else if s = "recommended" then Except.ok Importance.recommended
      else Except.error (name ++ ": invalid enum value")
  | _ => Except.error (name ++ ": invalid enum value")

/-- `z.date()` applied to the field value: only a `Date` is accepted. -/
def asDate (name : String) : JsValue → Except String Rat
  | JsValue.date t => Except.ok t
  | _ => Except.error (name ++ ": expected date")

/-- Element-wise array validation: every element must pass `inner`. -/
def mapParse (inner : JsValue → Except String α) : List JsValue → Except String (List α)
  | [] => Except.ok []
  | x :: xs => do
      let a ← inner x
      let as ← mapParse inner xs
      Except.ok (a :: as)

/-- `z.array(inner)` applied to the field value. -/
def asArray (name : String) (inner : JsValue → Except String α) :
    JsValue → Except String (List α)
  | JsValue.arr xs => mapParse inner xs
  | _ => Except.error (name ++ ": expected array")

/-- `clauseSchema.parse`. -/
def clauseSchema (v : JsValue) : Except String Clause :=
  match v with
  | JsValue.obj o => do
      let id ← reqField o "id" (asStr "id")
      let title ← reqField o "title" (asStr "title")
      let content ← reqField o "content" (asStr "content")
      let riskLevel ← reqField o "riskLevel" (asRiskLevel "riskLevel")
      let riskScore ← reqField o "riskScore" (asNumRange 0 100 "riskScore")
      let explanation ← reqField o "explanation" (asStr "explanation")
      let suggestions ← reqField o "suggestions" (asArray "suggestions" (asStr "suggestions"))
      let startIndex ← reqField o "startIndex" (asNum "startIndex")
      let endIndex ← reqField o "endIndex" (asNum "endIndex")
      Except.ok ⟨id, title, content, riskLevel, riskScore, explanation,
        suggestions, startIndex, endIndex⟩
  | _ => Except.error "clause: expected object"

/-- The anonymous key-issue element schema of `contractAnalysisSchema`. -/
def keyIssueSchema (v : JsValue) : Except String KeyIssue :=
  match v with
  | JsValue.obj o => do
      let id ← reqField o "id" (asStr "id")
      let title ← reqField o "title" (asStr "title")
      let description ← reqField o "description" (asStr "description")
      let riskLevel ← reqField o "riskLevel" (asRiskLevel "riskLevel")
      let clause ← reqField o "clause" (asStr "clause")
      let suggestion ← reqField o "suggestion" (asStr "suggestion")
      Except.ok ⟨id, title, description, riskLevel, clause, suggestion⟩
  | _ => Except.error "keyIssue: expected object"

/-- The anonymous missing-protection element schema of
`contractAnalysisSchema`. -/
def missingProtectionSchema (v : JsValue) : Except String MissingProtection :=
  match v with
  | JsValue.obj o => do
      let id ← reqField o "id" (asStr "id")
      let title ← reqField o "title" (asStr "title")
      let description ← reqField o "description" (asStr "description")
      let importance ← reqField o "importance" (asImportance "importance")
      let sampleClause ← reqField o "sampleClause" (asStr "sampleClause")
      Except.ok ⟨id, title, description, importance, sampleClause⟩
  | _ => Except.error "missingProtection: expected object"

/-- The nested `riskBreakdown` object schema: five required sub-scores,
each `z.number().min(0).max(100)`. -/
def riskBreakdownSchema (v : JsValue) : Except String RiskBreakdown :=
  match v with
  | JsValue.obj o => do
      let payment ← reqField o "payment" (asNumRange 0 100 "payment")
      let liability ← reqField o "liability" (asNumRange 0 100 "liability")
      let termin ← reqField o "termination" (asNumRange 0 100 "termination")
      let confid ← reqField o "confidentiality" (asNumRange 0 100 "confidentiality")
      let ip ← reqField o "intellectual_property" (asNumRange 0 100 "intellectual_property")
      Except.ok ⟨payment, liability, termin, confid, ip⟩
  | _ => Except.error "riskBreakdown: expected object"

/-- `contractAnalysisSchema.parse` — the validator of the spec. -/
def contractAnalysisSchema (v : JsValue) : Except String ContractAnalysis :=
  match v with
  | JsValue.obj o => do
      let id ← reqField o "id" (asStr "id")
      let title ← reqField o "title" (asStr "title")
      let content ← reqField o "content" (asStr "content")
      let riskScore ← reqField o "riskScore" (asNumRange 0 100 "riskScore")
      let clauses ← reqField o "clauses" (asArray "clauses" clauseSchema)
      let keyIssues ← reqField o "keyIssues" (asArray "keyIssues" keyIssueSchema)
      let missingProtections ←
        reqField o "missingProtections" (asArray "missingProtections" missingProtectionSchema)
      let riskBreakdown ← reqField o "riskBreakdown" riskBreakdownSchema
      let plainLanguageSummary ←
        reqField o "plainLanguageSummary" (asStr "plainLanguageSummary")
      let confidence ← reqField o "confidence" (asNumRange 0 1 "confidence")
      let analysisDate ← reqField o "analysisDate" (asDate "analysisDate")
      Except.ok ⟨id, title, content, riskScore, clauses, keyIssues,
        missingProtections, riskBreakdown, plainLanguageSummary, confidence,
        analysisDate⟩
  | _ => Except.error "analysis: expected object"

/-! ## Converting parsed records back to JavaScript values -/

def RiskLevel.toJs : RiskLevel → JsValue
  | RiskLevel.low => JsValue.str "low"
  | RiskLevel.medium => JsValue.str "medium"
  | RiskLevel.high => JsValue.str "high"

def Importance.toJs : Importance → JsValue
  | Importance.critical => JsValue.str "critical"
  | Importance.important => JsValue.str "important"
  | Importance.recommended => JsValue.str "recommended"

def Clause.toJs (c : Clause) : JsValue :=
  JsValue.obj
    [("id", JsValue.str c.id),
     ("title", JsValue.str c.title),
     ("content", JsValue.str c.content),
     ("riskLevel", c.riskLevel.toJs),
     ("riskScore", JsValue.num c.riskScore),
     ("explanation", JsValue.str c.explanation),
     ("suggestions", JsValue.arr (c.suggestions.map JsValue.str)),
     ("startIndex", JsValue.num c.startIndex),
     ("endIndex", JsValue.num c.endIndex)]

def KeyIssue.toJs (k : KeyIssue) : JsValue :=
  JsValue.obj
    [("id", JsValue.str k.id),
     ("title", JsValue.str k.title),
     ("description", JsValue.str k.description),
     ("riskLevel", k.riskLevel.toJs),
     ("clause", JsValue.str k.clause),
     ("suggestion", JsValue.str k.suggestion)]

def MissingProtection.toJs (m : MissingProtection) : JsValue :=
  JsValue.obj
    [("id", JsValue.str m.id),
     ("title", JsValue.str m.title),
     ("description", JsValue.str m.description),
     ("importance", m.importance.toJs),
     ("sampleClause", JsValue.str m.sampleClause)]

def RiskBreakdown.toJs (b : RiskBreakdown) : JsValue :=
  JsValue.obj
    [("payment", JsValue.num b.payment),
     ("liability", JsValue.num b.liability),
     ("termination", JsValue.num b.termination),
     ("confidentiality", JsValue.num b.confidentiality),
     ("intellectual_property", JsValue.num b.intellectual_property)]

def ContractAnalysis.toJs (a : ContractAnalysis) : JsValue :=
  JsValue.obj
    [("id", JsValue.str a.id),
     ("title", JsValue.str a.title),
     ("content", JsValue.str a.content),
     ("riskScore", JsValue.num a.riskScore),
     ("clauses", JsValue.arr (a.clauses.map Clause.toJs)),
     ("keyIssues", JsValue.arr (a.keyIssues.map KeyIssue.toJs)),
     ("missingProtections", JsValue.arr (a.missingProtections.map MissingProtection.toJs)),
     ("riskBreakdown", a.riskBreakdown.toJs),
     ("plainLanguageSummary", JsValue.str a.plainLanguageSummary),
     ("confidence", JsValue.num a.confidence),
     ("analysisDate", JsValue.date a.analysisDate)]

/-! ## `analyzeContract` result assembly (object literal with spread) -/

/-- JavaScript property assignment `o[k] = v`: overwrite the existing
binding in place, or append a new one. -/
def setKey : List (String × JsValue) → String → JsValue → List (String × JsValue)
  | [], k, v => [(k, v)]
  | (k', v') :: rest, k, v =>
      if k' = k then (k, v) :: rest else (k', v') :: setKey rest k v

/-- JavaScript object spread `{...o, ...src}` restricted to the second
operand: copy the bindings of `src` into `o` in order. -/
def spreadInto (o : List (String × JsValue)) (src : List (String × JsValue)) :
    List (String × JsValue) :=
  src.foldl (fun acc kv => setKey acc kv.1 kv.2) o

/-- The return value of `analyzeContract`: the object literal
`{ id: crypto.randomUUID(), title, content: contractText, ...analysisData,
analysisDate: new Date() }`, with the fresh UUID and the current time as
parameters. -/
def analyzeContractResult (uuid : String) (title contractText : String)
    (analysisData : List (String × JsValue)) (now : Rat) :
    List (String × JsValue) :=
  setKey
    (spreadInto
      [("id", JsValue.str uuid), ("title", JsValue.str title),
       ("content", JsValue.str contractText)]
      analysisData)
    "analysisDate" (JsValue.date now)

/-! ## The JSON round trip of `storeAnalysis` / `useStoredAnalysis` -/

/-- Models `Date.prototype.toISOString` only as a string encoding of the
timestamp; the exact calendar format is a browser built-in outside the
repository. All that matters is that `JSON.stringify` turns a `Date` into
a string. -/
def dateToIso (t : Rat) : String :=
  "iso:" ++ toString t.num ++ "/" ++ toString t.den

mutual

/-- The composite `JSON.parse(JSON.stringify(v))` as performed by
`storeAnalysis` and `useStoredAnalysis`: JSON primitives, arrays and
objects survive unchanged, while a `Date` is serialised via its
`toJSON`/`toISOString` and comes back as a plain string. -/
def jsonRoundtrip : JsValue → JsValue
  | JsValue.num q => JsValue.num q
  | JsValue.str s => JsValue.str s
  | JsValue.jsBool b => JsValue.jsBool b
  | JsValue.jsNull => JsValue.jsNull
  | JsValue.arr xs => JsValue.arr (jsonRoundtripList xs)
  | JsValue.obj fs => JsValue.obj (jsonRoundtripFields fs)
  | JsValue.date t => JsValue.str (dateToIso t)

def jsonRoundtripList : List JsValue → List JsValue
  | [] => []
  | x :: xs => jsonRoundtrip x :: jsonRoundtripList xs

def jsonRoundtripFields : List (String × JsValue) → List (String × JsValue)
  | [] => []
  | (k, v) :: fs => (k, jsonRoundtrip v) :: jsonRoundtripFields fs

end

/-- `ContractAnalysis.toJs` after the JSON round trip: identical except
that `analysisDate` is the ISO string instead of the `Date`. -/
def ContractAnalysis.toJsStored (a : ContractAnalysis) : JsValue :=
  JsValue.obj
    [("id", JsValue.str a.id),
     ("title", JsValue.str a.title),
     ("content", JsValue.str a.content),
     ("riskScore", JsValue.num a.riskScore),
     ("clauses", JsValue.arr (a.clauses.map Clause.toJs)),
     ("keyIssues", JsValue.arr (a.keyIssues.map KeyIssue.toJs)),
     ("missingProtections", JsValue.arr (a.missingProtections.map MissingProtection.toJs)),
     ("riskBreakdown", a.riskBreakdown.toJs),
     ("plainLanguageSummary", JsValue.str a.plainLanguageSummary),
     ("confidence", JsValue.num a.confidence),
     ("analysisDate", JsValue.str (dateToIso a.analysisDate))]

/-! ## The `analysis-ids` recency list of `storeAnalysis` -/

/-- The update `storeAnalysis` applies to the persisted `analysis-ids`
list: `[analysis.id, ...existingIds.filter(id => id !== analysis.id)]
.slice(0, 10)`. -/
def storeAnalysisIds (existingIds : List String) (id : String) : List String :=
  (id :: existingIds.filter (fun x => x != id)).take 10

/-- All five sub-scores of a risk breakdown lie in `[0, 100]`. -/
def breakdownInRange (b : RiskBreakdown) : Prop :=
  (0 ≤ b.payment ∧ b.payment ≤ 100) ∧
  (0 ≤ b.liability ∧ b.liability ≤ 100) ∧
  (0 ≤ b.termination ∧ b.termination ≤ 100) ∧
  (0 ≤ b.confidentiality ∧ b.confidentiality ≤ 100) ∧
  (0 ≤ b.intellectual_property ∧ b.intellectual_property ≤ 100)

/-! ## Concrete candidate fixtures -/

/-- A fully well-formed clause object. -/
def validClauseJs : JsValue :=
  JsValue.obj
    [("id", JsValue.str "c1"), ("title", JsValue.str "Payment"),
     ("content", JsValue.str "pay"), ("riskLevel", JsValue.str "low"),
     ("riskScore", JsValue.num 20), ("explanation", JsValue.str "fine"),
     ("suggestions", JsValue.arr [JsValue.str "none"]),
     ("startIndex", JsValue.num 0), ("endIndex", JsValue.num 3)]

/-- A complete, in-range risk breakdown object. -/
def validBreakdownJs : JsValue :=
  JsValue.obj
    [("payment", JsValue.num 10), ("liability", JsValue.num 20),
     ("termination", JsValue.num 30), ("confidentiality", JsValue.num 40),
     ("intellectual_property", JsValue.num 50)]

/-- A fully well-formed candidate analysis object. -/
def validCandidate : JsValue :=
  JsValue.obj
    [("id", JsValue.str "a1"), ("title", JsValue.str "T"),
     ("content", JsValue.str "pay now"), ("riskScore", JsValue.num 40),
     ("clauses", JsValue.arr [validClauseJs]),
     ("keyIssues", JsValue.arr []),
     ("missingProtections", JsValue.arr []),
     ("riskBreakdown", validBreakdownJs),
     ("plainLanguageSummary", JsValue.str "ok"),
     ("confidence", JsValue.num (mkRat 1 2)),
     ("analysisDate", JsValue.date 0)]

/-- The record `contractAnalysisSchema` produces for `validCandidate`. -/
def validResult : ContractAnalysis :=
  ⟨"a1", "T", "pay now", 40,
   [⟨"c1", "Payment", "pay", RiskLevel.low, 20, "fine", ["none"], 0, 3⟩],
   [], [], ⟨10, 20, 30, 40, 50⟩, "ok", mkRat 1 2, 0⟩

/-- A clause object violating every span invariant: `startIndex` 10 is not
less than `endIndex` 5, `endIndex` exceeds the top-level content length 2,
and `content` is not a substring of the top-level content `"ab"`. -/
def spanBadClauseJs : JsValue :=
  JsValue.obj
    [("id", JsValue.str "c1"), ("title", JsValue.str "Bad"),
     ("content", JsValue.str "NOTSUB"), ("riskLevel", JsValue.str "high"),
     ("riskScore", JsValue.num 90), ("explanation", JsValue.str "why"),
     ("suggestions", JsValue.arr []),
     ("startIndex", JsValue.num 10), ("endIndex", JsValue.num 5)]

/-- The parsed form of `spanBadClauseJs`. -/
def spanBadClauseRec : Clause :=
  ⟨"c1", "Bad", "NOTSUB", RiskLevel.high, 90, "why", [], 10, 5⟩

/-- A candidate analysis whose only clause violates the span invariants
but which satisfies every constraint the zod schema actually declares. -/
def spanBadCandidate : JsValue :=
  JsValue.obj
    [("id", JsValue.str "a2"), ("title", JsValue.str "T2"),
     ("content", JsValue.str "ab"), ("riskScore", JsValue.num 50),
     ("clauses", JsValue.arr [spanBadClauseJs]),
     ("keyIssues", JsValue.arr []),
     ("missingProtections", JsValue.arr []),
     ("riskBreakdown", validBreakdownJs),
     ("plainLanguageSummary", JsValue.str "s"),
     ("confidence", JsValue.num 1),
     ("analysisDate", JsValue.date 7)]

/-- The record `contractAnalysisSchema` produces for `spanBadCandidate`. -/
def spanBadResult : ContractAnalysis :=
  ⟨"a2", "T2", "ab", 50, [spanBadClauseRec], [], [],
   ⟨10, 20, 30, 40, 50⟩, "s", 1, 7⟩

/-- A candidate whose `riskBreakdown` carries a sixth, undeclared
category. -/
def extraKeyCandidate : JsValue :=
  JsValue.obj
    [("id", JsValue.str "a3"), ("title", JsValue.str "T3"),
     ("content", JsValue.str "pay now"), ("riskScore", JsValue.num 40),
     ("clauses", JsValue.arr [validClauseJs]),
     ("keyIssues", JsValue.arr []),
     ("missingProtections", JsValue.arr []),
     ("riskBreakdown", JsValue.obj
       [("payment", JsValue.num 10), ("liability", JsValue.num 20),
        ("termination", JsValue.num 30), ("confidentiality", JsValue.num 40),
        ("intellectual_property", JsValue.num 50),
        ("data_privacy", JsValue.num 10)]),
     ("plainLanguageSummary", JsValue.str "ok"),
     ("confidence", JsValue.num (mkRat 1 2)),
     ("analysisDate", JsValue.date 0)]

/-- The record `contractAnalysisSchema` produces for `extraKeyCandidate`:
the undeclared sixth category is silently dropped. -/
def extraKeyResult : ContractAnalysis :=
  ⟨"a3", "T3", "pay now", 40,
   [⟨"c1", "Payment", "pay", RiskLevel.low, 20, "fine", ["none"], 0, 3⟩],
   [], [], ⟨10, 20, 30, 40, 50⟩, "ok", mkRat 1 2, 0⟩

/-- A candidate whose `riskBreakdown` lacks `intellectual_property`. -/
def missingIpCandidate : JsValue :=
  JsValue.obj
    [("id", JsValue.str "a4"), ("title", JsValue.str "T4"),
     ("content", JsValue.str "pay now"), ("riskScore", JsValue.num 40),
     ("clauses", JsValue.arr [validClauseJs]),
     ("keyIssues", JsValue.arr []),
     ("missingProtections", JsValue.arr []),
     ("riskBreakdown", JsValue.obj
       [("payment", JsValue.num 10), ("liability", JsValue.num 20),
        ("termination", JsValue.num 30), ("confidentiality", JsValue.num 40)]),
     ("plainLanguageSummary", JsValue.str "ok"),
     ("confidence", JsValue.num (mkRat 1 2)),
     ("analysisDate", JsValue.date 0)]

/-! ## C1: classifier priority order -/

/-- C1: for every text and title input, `detectContractDomain` lower-cases
the concatenation of text and title and returns the first domain whose
keyword group matches, testing groups in the fixed order finance,
real_estate, insurance, employment, technology, healthcare, construction,
vendor, professional, and returns "general" when no group matches (the
spec-ordered first-match classifier `classifySpec`); in particular an
input containing both "loan" and "software" classifies as finance, not
technology. Determinism and totality are inherent: it is a function. -/
theorem detectContractDomain_first_match_priority (contractText title : String) :
    detectContractDomain contractText title = classifySpec contractText title ∧
    detectContractDomain "This agreement covers a loan and delivered software" "Services"
      = "finance" := by
  constructor
  · rfl
  · decide

/-! ## C3 and C6: configuration table -/

/-- C3: the static `domainConfig` table is exhaustive over all ten domain
tags — `resolve` succeeds on each — and every resolved threshold record
satisfies `0 ≤ low < medium < high ≤ 100`. -/
theorem domainConfig_exhaustive_ordered (d : String) (h : d ∈ domainTags) :
    ∃ c, resolve d = some c ∧
      0 ≤ c.riskThresholds.low ∧ c.riskThresholds.low < c.riskThresholds.medium ∧
      c.riskThresholds.medium < c.riskThresholds.high ∧ c.riskThresholds.high ≤ 100 := by
  fin_cases h <;> exact ⟨_, rfl, by decide, by decide, by decide, by decide⟩

/-- Witness for C3 at the concrete tag "finance". -/
theorem domainConfig_exhaustive_ordered_witness :
    ∃ c, resolve "finance" = some c ∧
      0 ≤ c.riskThresholds.low ∧ c.riskThresholds.low < c.riskThresholds.medium ∧
      c.riskThresholds.medium < c.riskThresholds.high ∧ c.riskThresholds.high ≤ 100 :=
  domainConfig_exhaustive_ordered "finance" (by decide)

/-- C6: `resolve` yields the configuration values named by the spec:
finance ↦ multiplier 1.2 with thresholds 30/60/80, vendor ↦ 0.7 with
20/45/65, general ↦ 0.9 with 25/50/70. -/
theorem resolve_config_values :
    (resolve "finance").map (fun c => (c.penaltyMultiplier, c.riskThresholds))
      = some (1.2, ⟨30, 60, 80⟩) ∧
    (resolve "vendor").map (fun c => (c.penaltyMultiplier, c.riskThresholds))
      = some (0.7, ⟨20, 45, 65⟩) ∧
    (resolve "general").map (fun c => (c.penaltyMultiplier, c.riskThresholds))
      = some (0.9, ⟨25, 50, 70⟩) := by
  refine ⟨?_, ?_, ?_⟩ <;> rfl

/-! ## C10: the `analysis-ids` recency list -/

/-- C10: after `storeAnalysis`, the persisted id list starts with the
stored id, stays duplicate-free (given a duplicate-free previous state, so
the property is preserved by repeated calls, including re-storing an id
already present), and has length at most 10. -/
theorem storeAnalysisIds_invariant (ids : List String) (a : String) (h : ids.Nodup) :
    (storeAnalysisIds ids a).head? = some a ∧
    (storeAnalysisIds ids a).Nodup ∧
    (storeAnalysisIds ids a).length ≤ 10 := by
  refine ⟨rfl, ?_, ?_⟩
  · apply (List.take_sublist _ _).nodup
    rw [List.nodup_cons]
    exact ⟨fun hmem => by simpa using List.of_mem_filter hmem, h.filter _⟩
  · exact List.length_take_le 10 _

/-- Witness for C10: re-storing the id "a" over the list ["b", "a"]. -/
theorem storeAnalysisIds_invariant_witness :
    (storeAnalysisIds ["b", "a"] "a").head? = some "a" ∧
    (storeAnalysisIds ["b", "a"] "a").Nodup ∧
    (storeAnalysisIds ["b", "a"] "a").length ≤ 10 :=
  storeAnalysisIds_invariant ["b", "a"] "a" (by decide)

/-! ## Inversion lemmas for the schema parsers -/

theorem bind_ok {α β : Type} {x : Except String α} {f : α → Except String β} {b : β}
    (h : (x >>= f) = Except.ok b) : ∃ a, x = Except.ok a ∧ f a = Except.ok b := by
  cases x with
  | error e => simp [Bind.bind, Except.bind] at h
  | ok a => exact ⟨a, rfl, h⟩

theorem reqField_ok {α : Type} {o : List (String × JsValue)} {name : String}
    {p : JsValue → Except String α} {a : α} (h : reqField o name p = Except.ok a) :
    ∃ v, getField o name = some v ∧ p v = Except.ok a := by
  unfold reqField at h
  split at h
  next v heq => exact ⟨v, heq, h⟩
  next => exact absurd h (by simp)

theorem asStr_ok {name : String} {v : JsValue} {s : String}
    (h : asStr name v = Except.ok s) : v = JsValue.str s := by
  cases v <;> simp [asStr] at h
  rw [h]

theorem asNum_ok {name : String} {v : JsValue} {q : Rat}
    (h : asNum name v = Except.ok q) : v = JsValue.num q := by
  cases v <;> simp [asNum] at h
  rw [h]

theorem asNumRange_ok {lo hi : Rat} {name : String} {v : JsValue} {q : Rat}
    (h : asNumRange lo hi name v = Except.ok q) :
    v = JsValue.num q ∧ lo ≤ q ∧ q ≤ hi := by
  cases v with
  | num q' =>
      simp only [asNumRange] at h
      split at h
      next hrange =>
        injection h with h
        subst h
        exact ⟨rfl, hrange.1, hrange.2⟩
      next => exact Except.noConfusion h
  | str s => simp only [asNumRange] at h; exact Except.noConfusion h
  | jsBool b => simp only [asNumRange] at h; exact Except.noConfusion h
  | jsNull => simp only [asNumRange] at h; exact Except.noConfusion h
  | arr xs => simp only [asNumRange] at h; exact Except.noConfusion h
  | obj fs => simp only [asNumRange] at h; exact Except.noConfusion h
  | date t => simp only [asNumRange] at h; exact Except.noConfusion h

theorem asDate_ok {name : String} {v : JsValue} {t : Rat}
    (h : asDate name v = Except.ok t) : v = JsValue.date t := by
  cases v <;> simp [asDate] at h
  rw [h]

theorem asArray_ok {α : Type} {name : String} {inner : JsValue → Except String α}
    {v : JsValue} {ys : List α} (h : asArray name inner v = Except.ok ys) :
    ∃ xs, v = JsValue.arr xs ∧ mapParse inner xs = Except.ok ys := by
  cases v <;> simp [asArray] at h
  exact ⟨_, rfl, h⟩

theorem mapParse_ok_forall₂ {α : Type} {inner : JsValue → Except String α} :
    ∀ {xs : List JsValue} {ys : List α}, mapParse inner xs = Except.ok ys →
      List.Forall₂ (fun x y => inner x = Except.ok y) xs ys := by
  intro xs
  induction xs with
  | nil =>
      intro ys h
      rw [mapParse] at h
      injection h with h
      subst h
      exact List.Forall₂.nil
  | cons x xs ih =>
      intro ys h
      rw [mapParse] at h
      obtain ⟨y, hy, h⟩ := bind_ok h
      obtain ⟨ys', hys, h⟩ := bind_ok h
      injection h with h
      subst h
      exact List.Forall₂.cons hy (ih hys)

theorem mapParse_map_ok {α : Type} {inner : JsValue → Except String α} {g : α → JsValue}
    {bs : List α} (hg : ∀ b ∈ bs, inner (g b) = Except.ok b) :
    mapParse inner (bs.map g) = Except.ok bs := by
  induction bs with
  | nil => rw [List.map_nil, mapParse]
  | cons b bs ih =>
      rw [List.map_cons, mapParse, hg b (by simp),
        ih (fun b hb => hg b (by simp [hb]))]
      rfl

/-- Everything a successful `riskBreakdownSchema` parse guarantees about
the input object: the five categories are present as numbers, the parsed
record carries exactly those values, and each is in `[0, 100]`. -/
theorem riskBreakdownSchema_ok_inv {v : JsValue} {b : RiskBreakdown}
    (h : riskBreakdownSchema v = Except.ok b) :
    ∃ o, v = JsValue.obj o ∧
      getField o "payment" = some (JsValue.num b.payment) ∧
      getField o "liability" = some (JsValue.num b.liability) ∧
      getField o "termination" = some (JsValue.num b.termination) ∧
      getField o "confidentiality" = some (JsValue.num b.confidentiality) ∧
      getField o "intellectual_property" = some (JsValue.num b.intellectual_property) ∧
      (0 ≤ b.payment ∧ b.payment ≤ 100) ∧
      (0 ≤ b.liability ∧ b.liability ≤ 100) ∧
      (0 ≤ b.termination ∧ b.termination ≤ 100) ∧
      (0 ≤ b.confidentiality ∧ b.confidentiality ≤ 100) ∧
      (0 ≤ b.intellectual_property ∧ b.intellectual_property ≤ 100) := by
  cases v with
  | obj o =>
      simp only [riskBreakdownSchema] at h
      obtain ⟨pay, hpay, h⟩ := bind_ok h
      obtain ⟨lia, hlia, h⟩ := bind_ok h
      obtain ⟨ter, hter, h⟩ := bind_ok h
      obtain ⟨con, hcon, h⟩ := bind_ok h
      obtain ⟨ip, hip, h⟩ := bind_ok h
      injection h with h
      subst h
      obtain ⟨v1, hg1, hp1⟩ := reqField_ok hpay
      obtain ⟨hv1, hlo1, hhi1⟩ := asNumRange_ok hp1
      obtain ⟨v2, hg2, hp2⟩ := reqField_ok hlia
      obtain ⟨hv2, hlo2, hhi2⟩ := asNumRange_ok hp2
      obtain ⟨v3, hg3, hp3⟩ := reqField_ok hter
      obtain ⟨hv3, hlo3, hhi3⟩ := asNumRange_ok hp3
      obtain ⟨v4, hg4, hp4⟩ := reqField_ok hcon
      obtain ⟨hv4, hlo4, hhi4⟩ := asNumRange_ok hp4
      obtain ⟨v5, hg5, hp5⟩ := reqField_ok hip
      obtain ⟨hv5, hlo5, hhi5⟩ := asNumRange_ok hp5
      subst hv1 hv2 hv3 hv4 hv5
      exact ⟨o, rfl, hg1, hg2, hg3, hg4, hg5,
        ⟨hlo1, hhi1⟩, ⟨hlo2, hhi2⟩, ⟨hlo3, hhi3⟩, ⟨hlo4, hhi4⟩, ⟨hlo5, hhi5⟩⟩
  | num q => exact absurd h (by simp [riskBreakdownSchema])
  | str s => exact absurd h (by simp [riskBreakdownSchema])
  | jsBool b' => exact absurd h (by simp [riskBreakdownSchema])
  | jsNull => exact absurd h (by simp [riskBreakdownSchema])
  | arr xs => exact absurd h (by simp [riskBreakdownSchema])
  | date t => exact absurd h (by simp [riskBreakdownSchema])

theorem forall₂_mem_right {α β : Type} {R : α → β → Prop} {xs : List α} {ys : List β}
    (h : List.Forall₂ R xs ys) : ∀ y ∈ ys, ∃ x, R x y := by
  induction h with
  | nil => intro y hy; cases hy
  | cons hR _ ih =>
      intro y hy
      rcases List.mem_cons.1 hy with rfl | hy
      · exact ⟨_, hR⟩
      · exact ih y hy

/-- Everything a successful `clauseSchema` parse guarantees: the input is
an object, `riskScore` was a number equal to the parsed value and in
`[0, 100]`, and `startIndex` / `endIndex` were numbers equal to the parsed
values — with no constraint at all relating the two. -/
theorem clauseSchema_ok_inv {v : JsValue} {c : Clause}
    (h : clauseSchema v = Except.ok c) :
    ∃ o, v = JsValue.obj o ∧
      getField o "riskScore" = some (JsValue.num c.riskScore) ∧
      (0 ≤ c.riskScore ∧ c.riskScore ≤ 100) ∧
      getField o "startIndex" = some (JsValue.num c.startIndex) ∧
      getField o "endIndex" = some (JsValue.num c.endIndex) := by
  cases v with
  | obj o =>
      simp only [clauseSchema] at h
      obtain ⟨cid, h1, h⟩ := bind_ok h
      obtain ⟨ctitle, h2, h⟩ := bind_ok h
      obtain ⟨ccontent, h3, h⟩ := bind_ok h
      obtain ⟨crl, h4, h⟩ := bind_ok h
      obtain ⟨crs, h5, h⟩ := bind_ok h
      obtain ⟨cexp, h6, h⟩ := bind_ok h
      obtain ⟨csug, h7, h⟩ := bind_ok h
      obtain ⟨cstart, h8, h⟩ := bind_ok h
      obtain ⟨cend, h9, h⟩ := bind_ok h
      injection h with h
      subst h
      obtain ⟨v5, hg5, hp5⟩ := reqField_ok h5
      obtain ⟨hv5, hlo5, hhi5⟩ := asNumRange_ok hp5
      subst hv5
      obtain ⟨v8, hg8, hp8⟩ := reqField_ok h8
      have hv8 := asNum_ok hp8
      subst hv8
      obtain ⟨v9, hg9, hp9⟩ := reqField_ok h9
      have hv9 := asNum_ok hp9
      subst hv9
      exact ⟨o, rfl, hg5, ⟨hlo5, hhi5⟩, hg8, hg9⟩
  | num q => simp only [clauseSchema] at h; exact Except.noConfusion h
  | str s => simp only [clauseSchema] at h; exact Except.noConfusion h
  | jsBool b => simp only [clauseSchema] at h; exact Except.noConfusion h
  | jsNull => simp only [clauseSchema] at h; exact Except.noConfusion h
  | arr xs => simp only [clauseSchema] at h; exact Except.noConfusion h
  | date t => simp only [clauseSchema] at h; exact Except.noConfusion h

/-- Everything a successful `contractAnalysisSchema` parse guarantees
about the candidate and the returned record. -/
theorem contractAnalysisSchema_ok_inv {v : JsValue} {r : ContractAnalysis}
    (h : contractAnalysisSchema v = Except.ok r) :
    ∃ o, v = JsValue.obj o ∧
      getField o "riskScore" = some (JsValue.num r.riskScore) ∧
      (0 ≤ r.riskScore ∧ r.riskScore ≤ 100) ∧
      (∃ cs, getField o "clauses" = some (JsValue.arr cs) ∧
        List.Forall₂ (fun cv c => clauseSchema cv = Except.ok c) cs r.clauses) ∧
      (∃ bo, getField o "riskBreakdown" = some (JsValue.obj bo) ∧
        getField bo "payment" = some (JsValue.num r.riskBreakdown.payment) ∧
        getField bo "liability" = some (JsValue.num r.riskBreakdown.liability) ∧
        getField bo "termination" = some (JsValue.num r.riskBreakdown.termination) ∧
        getField bo "confidentiality" = some (JsValue.num r.riskBreakdown.confidentiality) ∧
        getField bo "intellectual_property"
          = some (JsValue.num r.riskBreakdown.intellectual_property)) ∧
      breakdownInRange r.riskBreakdown ∧
      getField o "confidence" = some (JsValue.num r.confidence) ∧
      (0 ≤ r.confidence ∧ r.confidence ≤ 1) := by
  cases v with
  | obj o =>
      simp only [contractAnalysisSchema] at h
      obtain ⟨aid, h1, h⟩ := bind_ok h
      obtain ⟨atitle, h2, h⟩ := bind_ok h
      obtain ⟨acontent, h3, h⟩ := bind_ok h
      obtain ⟨ars, h4, h⟩ := bind_ok h
      obtain ⟨acl, h5, h⟩ := bind_ok h
      obtain ⟨aki, h6, h⟩ := bind_ok h
      obtain ⟨amp, h7, h⟩ := bind_ok h
      obtain ⟨abd, h8, h⟩ := bind_ok h
      obtain ⟨asum, h9, h⟩ := bind_ok h
      obtain ⟨acf, h10, h⟩ := bind_ok h
      obtain ⟨adate, h11, h⟩ := bind_ok h
      injection h with h
      subst h
      obtain ⟨v4, hg4, hp4⟩ := reqField_ok h4
      obtain ⟨hv4, hlo4, hhi4⟩ := asNumRange_ok hp4
      subst hv4
      obtain ⟨v5, hg5, hp5⟩ := reqField_ok h5
      obtain ⟨cs, hv5, hmap⟩ := asArray_ok hp5
      subst hv5
      obtain ⟨v8, hg8, hp8⟩ := reqField_ok h8
      obtain ⟨bo, hv8, hbp, hbl, hbt, hbc, hbi, hr1, hr2, hr3, hr4, hr5⟩ :=
        riskBreakdownSchema_ok_inv hp8
      subst hv8
      obtain ⟨v10, hg10, hp10⟩ := reqField_ok h10
      obtain ⟨hv10, hlo10, hhi10⟩ := asNumRange_ok hp10
      subst hv10
      exact ⟨o, rfl, hg4, ⟨hlo4, hhi4⟩,
        ⟨cs, hg5, mapParse_ok_forall₂ hmap⟩,
        ⟨bo, hg8, hbp, hbl, hbt, hbc, hbi⟩,
        ⟨hr1, hr2, hr3, hr4, hr5⟩, hg10, ⟨hlo10, hhi10⟩⟩
  | num q => simp only [contractAnalysisSchema] at h; exact Except.noConfusion h
  | str s => simp only [contractAnalysisSchema] at h; exact Except.noConfusion h
  | jsBool b => simp only [contractAnalysisSchema] at h; exact Except.noConfusion h
  | jsNull => simp only [contractAnalysisSchema] at h; exact Except.noConfusion h
  | arr xs => simp only [contractAnalysisSchema] at h; exact Except.noConfusion h
  | date t => simp only [contractAnalysisSchema] at h; exact Except.noConfusion h

theorem asNumRange_of_range {lo hi q : Rat} (name : String) (h1 : lo ≤ q) (h2 : q ≤ hi) :
    asNumRange lo hi name (JsValue.num q) = Except.ok q := by
  simp only [asNumRange, if_pos (And.intro h1 h2)]

theorem mapParse_str_id (name : String) (ss : List String) :
    mapParse (asStr name) (ss.map JsValue.str) = Except.ok ss :=
  mapParse_map_ok (fun _ _ => rfl)

/-- Re-parsing the JavaScript form of a parsed clause succeeds and returns
the same clause, given its score range. -/
theorem clauseSchema_toJs {c : Clause} (h1 : 0 ≤ c.riskScore) (h2 : c.riskScore ≤ 100) :
    clauseSchema c.toJs = Except.ok c := by
  obtain ⟨cid, ctitle, ccontent, crl, crs, cexp, csug, cstart, cend⟩ := c
  simp only at h1 h2
  cases crl <;>
    simp only [Clause.toJs, RiskLevel.toJs, clauseSchema, reqField, getField,
      asStr, asRiskLevel, asNum, asArray, asNumRange_of_range _ h1 h2,
      mapParse_str_id, Bind.bind, Except.bind, String.reduceEq, reduceIte]

theorem keyIssueSchema_toJs (k : KeyIssue) : keyIssueSchema k.toJs = Except.ok k := by
  obtain ⟨kid, ktitle, kdesc, krl, kcl, ksug⟩ := k
  cases krl <;>
    simp only [KeyIssue.toJs, RiskLevel.toJs, keyIssueSchema, reqField, getField,
      asStr, asRiskLevel, Bind.bind, Except.bind, String.reduceEq, reduceIte]

theorem missingProtectionSchema_toJs (m : MissingProtection) :
    missingProtectionSchema m.toJs = Except.ok m := by
  obtain ⟨mid, mtitle, mdesc, mim, msc⟩ := m
  cases mim <;>
    simp only [MissingProtection.toJs, Importance.toJs, missingProtectionSchema,
      reqField, getField, asStr, asImportance, Bind.bind, Except.bind,
      String.reduceEq, reduceIte]

theorem riskBreakdownSchema_toJs {b : RiskBreakdown} (hb : breakdownInRange b) :
    riskBreakdownSchema b.toJs = Except.ok b := by
  obtain ⟨bp, bl, bt, bc, bi⟩ := b
  simp only [breakdownInRange] at hb
  obtain ⟨⟨h1, h2⟩, ⟨h3, h4⟩, ⟨h5, h6⟩, ⟨h7, h8⟩, ⟨h9, h10⟩⟩ := hb
  simp only [RiskBreakdown.toJs, riskBreakdownSchema, reqField, getField,
    asNumRange_of_range _ h1 h2, asNumRange_of_range _ h3 h4,
    asNumRange_of_range _ h5 h6, asNumRange_of_range _ h7 h8,
    asNumRange_of_range _ h9 h10, Bind.bind, Except.bind, String.reduceEq, reduceIte]

/-- Re-parsing the JavaScript form of a parsed analysis succeeds and
returns the same record, given the range facts the first parse
established. -/
theorem contractAnalysisSchema_toJs {a : ContractAnalysis}
    (h1 : 0 ≤ a.riskScore) (h2 : a.riskScore ≤ 100)
    (hcl : ∀ c ∈ a.clauses, 0 ≤ c.riskScore ∧ c.riskScore ≤ 100)
    (hbd : breakdownInRange a.riskBreakdown)
    (hc1 : 0 ≤ a.confidence) (hc2 : a.confidence ≤ 1) :
    contractAnalysisSchema a.toJs = Except.ok a := by
  obtain ⟨aid, atitle, acontent, ars, acl, aki, amp, abd, asum, acf, adate⟩ := a
  simp only at h1 h2 hcl hbd hc1 hc2
  have harr : mapParse clauseSchema (acl.map Clause.toJs) = Except.ok acl :=
    mapParse_map_ok (fun c hc => clauseSchema_toJs (hcl c hc).1 (hcl c hc).2)
  have hki : mapParse keyIssueSchema (aki.map KeyIssue.toJs) = Except.ok aki :=
    mapParse_map_ok (fun k _ => keyIssueSchema_toJs k)
  have hmp : mapParse missingProtectionSchema (amp.map MissingProtection.toJs)
      = Except.ok amp :=
    mapParse_map_ok (fun m _ => missingProtectionSchema_toJs m)
  have hbd' : riskBreakdownSchema abd.toJs = Except.ok abd := riskBreakdownSchema_toJs hbd
  simp only [ContractAnalysis.toJs, contractAnalysisSchema, reqField, getField,
    asStr, asDate, asArray, harr, hki, hmp, hbd',
    asNumRange_of_range _ h1 h2, asNumRange_of_range _ hc1 hc2,
    Bind.bind, Except.bind, String.reduceEq, reduceIte]

/-! ## C2: clause span invariants are not checked by the schema -/

/-- C2 counterexample: the claim says a candidate containing a clause with
`startIndex` 10 and `endIndex` 5 (and content that is not the
corresponding substring) is rejected with a span-invariant error; in fact
`contractAnalysisSchema` accepts it. -/
theorem clause_span_counterexample :
    ∃ r, contractAnalysisSchema spanBadCandidate = Except.ok r :=
  ⟨spanBadResult, rfl⟩

/-- C2 amended: the schema constrains `startIndex` and `endIndex` only to
be numbers; no ordering, bounds, or substring relation is validated. A
clause with `startIndex` 10, `endIndex` 5, `endIndex` beyond the top-level
content (length 2), and content that is not a substring of the top-level
content is accepted unchanged. -/
theorem clause_span_not_validated :
    contractAnalysisSchema spanBadCandidate = Except.ok spanBadResult ∧
    spanBadResult.clauses = [spanBadClauseRec] ∧
    spanBadClauseRec.endIndex < spanBadClauseRec.startIndex ∧
    spanBadResult.content.length = 2 ∧ (2 : Rat) < spanBadClauseRec.endIndex ∧
    ¬ spanBadClauseRec.content.toList <:+: spanBadResult.content.toList := by
  exact ⟨rfl, rfl, by decide, rfl, by decide, by decide⟩

/-! ## C4: range checks -/

/-- C4: every accepted candidate has all score fields (top-level
`riskScore`, each clause `riskScore`, all `riskBreakdown` sub-scores) in
`[0, 100]` and `confidence` in `[0, 1]` — equivalently, any candidate with
a value outside those ranges is rejected — and the accepted values are the
candidate's own values, never coerced: the top-level `riskScore` and
`confidence` of the result are exactly the numbers found in the input
object. -/
theorem contractAnalysisSchema_range_checks {v : JsValue} {r : ContractAnalysis}
    (h : contractAnalysisSchema v = Except.ok r) :
    (0 ≤ r.riskScore ∧ r.riskScore ≤ 100) ∧
    (∀ c ∈ r.clauses, 0 ≤ c.riskScore ∧ c.riskScore ≤ 100) ∧
    breakdownInRange r.riskBreakdown ∧
    (0 ≤ r.confidence ∧ r.confidence ≤ 1) ∧
    (∃ o, v = JsValue.obj o ∧
      getField o "riskScore" = some (JsValue.num r.riskScore) ∧
      getField o "confidence" = some (JsValue.num r.confidence)) := by
  obtain ⟨o, rfl, hrs, hr, ⟨cs, hcs, hf⟩, hbo, hbr, hcf, hcr⟩ :=
    contractAnalysisSchema_ok_inv h
  refine ⟨hr, ?_, hbr, hcr, o, rfl, hrs, hcf⟩
  intro c hc
  obtain ⟨cv, hcv⟩ := forall₂_mem_right hf c hc
  obtain ⟨co, _, _, hrange, _⟩ := clauseSchema_ok_inv hcv
  exact hrange

/-- Witness for C4 at the concrete candidate `validCandidate`. -/
theorem contractAnalysisSchema_range_checks_witness :
    (0 ≤ validResult.riskScore ∧ validResult.riskScore ≤ 100) ∧
    (∀ c ∈ validResult.clauses, 0 ≤ c.riskScore ∧ c.riskScore ≤ 100) ∧
    breakdownInRange validResult.riskBreakdown ∧
    (0 ≤ validResult.confidence ∧ validResult.confidence ≤ 1) ∧
    (∃ o, validCandidate = JsValue.obj o ∧
      getField o "riskScore" = some (JsValue.num validResult.riskScore) ∧
      getField o "confidence" = some (JsValue.num validResult.confidence)) :=
  contractAnalysisSchema_range_checks
    (show contractAnalysisSchema validCandidate = Except.ok validResult from rfl)

/-! ## C5: breakdown completeness, but extra keys are stripped -/

/-- C5 counterexample: the claim says a candidate whose `riskBreakdown`
has an extra sixth category is rejected; in fact the schema accepts it
(unknown keys are stripped, the zod default). -/
theorem riskBreakdown_extra_key_accepted :
    ∃ r, contractAnalysisSchema extraKeyCandidate = Except.ok r :=
  ⟨extraKeyResult, rfl⟩

/-- C5 amended: an accepted candidate's `riskBreakdown` must contain all
five declared categories (so a candidate missing `intellectual_property`
is rejected, with an error naming that field when the others are valid),
but a sixth, undeclared category does not cause rejection: it is silently
ignored. -/
theorem riskBreakdown_completeness {v : JsValue} {r : ContractAnalysis}
    (h : contractAnalysisSchema v = Except.ok r) :
    (∃ o bo, v = JsValue.obj o ∧
      getField o "riskBreakdown" = some (JsValue.obj bo) ∧
      (getField bo "payment").isSome ∧ (getField bo "liability").isSome ∧
      (getField bo "termination").isSome ∧ (getField bo "confidentiality").isSome ∧
      (getField bo "intellectual_property").isSome) ∧
    contractAnalysisSchema missingIpCandidate
      = Except.error "intellectual_property: required" ∧
    contractAnalysisSchema extraKeyCandidate = Except.ok extraKeyResult := by
  refine ⟨?_, rfl, rfl⟩
  obtain ⟨o, rfl, _, _, _, ⟨bo, hbo, hp, hl, ht, hc, hi⟩, _, _, _⟩ :=
    contractAnalysisSchema_ok_inv h
  exact ⟨o, bo, rfl, hbo, by simp [hp], by simp [hl], by simp [ht],
    by simp [hc], by simp [hi]⟩

/-- Witness for C5 at the concrete candidate `validCandidate`. -/
theorem riskBreakdown_completeness_witness :
    (∃ o bo, validCandidate = JsValue.obj o ∧
      getField o "riskBreakdown" = some (JsValue.obj bo) ∧
      (getField bo "payment").isSome ∧ (getField bo "liability").isSome ∧
      (getField bo "termination").isSome ∧ (getField bo "confidentiality").isSome ∧
      (getField bo "intellectual_property").isSome) ∧
    contractAnalysisSchema missingIpCandidate
      = Except.error "intellectual_property: required" ∧
    contractAnalysisSchema extraKeyCandidate = Except.ok extraKeyResult :=
  riskBreakdown_completeness
    (show contractAnalysisSchema validCandidate = Except.ok validResult from rfl)

/-! ## C7: idempotence of validation -/

/-- C7: `contractAnalysisSchema` is idempotent: re-validating an accepted
record yields the very same record — no field changes, no re-stamping of
`id` or `analysisDate` (the schema stamps nothing). -/
theorem contractAnalysisSchema_idempotent {v : JsValue} {r : ContractAnalysis}
    (h : contractAnalysisSchema v = Except.ok r) :
    contractAnalysisSchema r.toJs = Except.ok r := by
  obtain ⟨o, rfl, hrs, hr, ⟨cs, hcs, hf⟩, hbo, hbr, hcf, hcr⟩ :=
    contractAnalysisSchema_ok_inv h
  apply contractAnalysisSchema_toJs hr.1 hr.2 ?_ hbr hcr.1 hcr.2
  intro c hc
  obtain ⟨cv, hcv⟩ := forall₂_mem_right hf c hc
  obtain ⟨co, _, _, hrange, _⟩ := clauseSchema_ok_inv hcv
  exact hrange

/-- Witness for C7 at the concrete candidate `validCandidate`. -/
theorem contractAnalysisSchema_idempotent_witness :
    contractAnalysisSchema (ContractAnalysis.toJs validResult) = Except.ok validResult :=
  contractAnalysisSchema_idempotent
    (show contractAnalysisSchema validCandidate = Except.ok validResult from rfl)

/-! ## C8: the JSON round trip loses the Date -/

theorem jsonRoundtripList_str (ss : List String) :
    jsonRoundtripList (ss.map JsValue.str) = ss.map JsValue.str := by
  induction ss with
  | nil => rfl
  | cons s ss ih => simp [jsonRoundtripList, jsonRoundtrip, ih]

theorem jsonRoundtrip_clause (c : Clause) : jsonRoundtrip c.toJs = c.toJs := by
  obtain ⟨cid, ctitle, ccontent, crl, crs, cexp, csug, cstart, cend⟩ := c
  cases crl <;>
    simp [Clause.toJs, RiskLevel.toJs, jsonRoundtrip, jsonRoundtripFields,
      jsonRoundtripList_str]

theorem jsonRoundtrip_keyIssue (k : KeyIssue) : jsonRoundtrip k.toJs = k.toJs := by
  obtain ⟨kid, ktitle, kdesc, krl, kcl, ksug⟩ := k
  cases krl <;>
    simp [KeyIssue.toJs, RiskLevel.toJs, jsonRoundtrip, jsonRoundtripFields]

theorem jsonRoundtrip_missingProtection (m : MissingProtection) :
    jsonRoundtrip m.toJs = m.toJs := by
  obtain ⟨mid, mtitle, mdesc, mim, msc⟩ := m
  cases mim <;>
    simp [MissingProtection.toJs, Importance.toJs, jsonRoundtrip, jsonRoundtripFields]

theorem jsonRoundtrip_breakdown (b : RiskBreakdown) : jsonRoundtrip b.toJs = b.toJs := by
  obtain ⟨bp, bl, bt, bc, bi⟩ := b
  simp [RiskBreakdown.toJs, jsonRoundtrip, jsonRoundtripFields]

theorem jsonRoundtripList_map {α : Type} (g : α → JsValue)
    (hg : ∀ x, jsonRoundtrip (g x) = g x) (xs : List α) :
    jsonRoundtripList (xs.map g) = xs.map g := by
  induction xs with
  | nil => rfl
  | cons x xs ih => simp [jsonRoundtripList, hg, ih]

/-- C8 (the claim fails on the code): serialising a `ContractAnalysis`
with `JSON.stringify` and reading it back with `JSON.parse` — what
`storeAnalysis` / `useStoredAnalysis` do — preserves every field except
`analysisDate`, which comes back as the ISO string instead of the original
`Date`, so the round trip is never the identity on a record carrying a
`Date`. -/
theorem storedAnalysis_roundtrip_changes_date (a : ContractAnalysis) :
    jsonRoundtrip a.toJs = a.toJsStored ∧ jsonRoundtrip a.toJs ≠ a.toJs := by
  have h : jsonRoundtrip a.toJs = a.toJsStored := by
    obtain ⟨aid, atitle, acontent, ars, acl, aki, amp, abd, asum, acf, adate⟩ := a
    obtain ⟨bp, bl, bt, bc, bi⟩ := abd
    simp [ContractAnalysis.toJs, ContractAnalysis.toJsStored, RiskBreakdown.toJs,
      jsonRoundtrip, jsonRoundtripFields,
      jsonRoundtripList_map Clause.toJs jsonRoundtrip_clause,
      jsonRoundtripList_map KeyIssue.toJs jsonRoundtrip_keyIssue,
      jsonRoundtripList_map MissingProtection.toJs jsonRoundtrip_missingProtection]
  refine ⟨h, ?_⟩
  rw [h]
  intro heq
  simp [ContractAnalysis.toJsStored, ContractAnalysis.toJs] at heq

/-! ## C9: `analyzeContract` result assembly -/

theorem getField_setKey_self (o : List (String × JsValue)) (k : String) (v : JsValue) :
    getField (setKey o k v) k = some v := by
  induction o with
  | nil => simp [setKey, getField]
  | cons kv rest ih =>
      obtain ⟨k', v'⟩ := kv
      by_cases h : k' = k
      · subst h; simp [setKey, getField]
      · simp [setKey, getField, h, ih]

theorem getField_setKey_ne {k' k : String} (o : List (String × JsValue)) (v : JsValue)
    (h : k' ≠ k) : getField (setKey o k' v) k = getField o k := by
  induction o with
  | nil => simp [setKey, getField, h]
  | cons kv rest ih =>
      obtain ⟨k0, v0⟩ := kv
      by_cases h0 : k0 = k'
      · subst h0; simp [setKey, getField, h]
      · by_cases hk : k0 = k
        · subst hk; simp [setKey, getField, h0]
        · simp [setKey, getField, h0, hk, ih]

theorem getField_spread_not_mem {k : String} :
    ∀ (src o : List (String × JsValue)), (∀ kv ∈ src, kv.1 ≠ k) →
      getField (spreadInto o src) k = getField o k := by
  intro src
  induction src with
  | nil => intro o _; rfl
  | cons kv rest ih =>
      intro o h
      obtain ⟨k0, v0⟩ := kv
      have hstep : spreadInto o ((k0, v0) :: rest) = spreadInto (setKey o k0 v0) rest := rfl
      rw [hstep, ih (setKey o k0 v0) (fun kv hkv => h kv (List.mem_cons_of_mem _ hkv)),
        getField_setKey_ne _ _ (h (k0, v0) (List.mem_cons_self _ _))]

theorem getField_spread_mem {k : String} {w : JsValue} :
    ∀ (src o : List (String × JsValue)), (src.map Prod.fst).Nodup → (k, w) ∈ src →
      getField (spreadInto o src) k = some w := by
  intro src
  induction src with
  | nil => intro o _ hmem; cases hmem
  | cons kv rest ih =>
      intro o hnd hmem
      obtain ⟨k0, v0⟩ := kv
      have hstep : spreadInto o ((k0, v0) :: rest) = spreadInto (setKey o k0 v0) rest := rfl
      rw [List.map_cons, List.nodup_cons] at hnd
      rcases List.mem_cons.1 hmem with heq | hmem'
      · injection heq with hk hw
        subst hk
        subst hw
        have hno : ∀ kv ∈ rest, kv.1 ≠ k := by
          intro kv hkv hkk
          apply hnd.1
          rw [← hkk]
          exact List.mem_map.mpr ⟨kv, hkv, rfl⟩
        rw [hstep, getField_spread_not_mem rest _ hno, getField_setKey_self]
      · rw [hstep]
        exact ih (setKey o k0 v0) hnd.2 hmem'

/-- C9 counterexample: a candidate `analysisData` that already carries an
`analysisDate` does not keep it — the object literal of `analyzeContract`
writes `analysisDate: new Date()` after the spread, overwriting it. -/
theorem analyzeContract_restamps_date :
    getField (analyzeContractResult "fresh" "T" "C"
        [("id", JsValue.str "cand"), ("analysisDate", JsValue.date 1)] 2)
      "analysisDate" = some (JsValue.date 2) ∧
    JsValue.date 2 ≠ JsValue.date 1 :=
  ⟨rfl, fun h => by injection h with h'; exact absurd h' (by norm_num)⟩

/-- C9 amended: in the result of `analyzeContract`, `analysisDate` is
always the freshly stamped current time, even when the candidate carried
one; `id` is the fresh UUID only when the candidate has no `id`, and is
the candidate's own `id` when it has one (the spread comes after the
`id:` field in the object literal). -/
theorem analyzeContract_stamping (uuid title content : String)
    (src : List (String × JsValue)) (now : Rat) :
    getField (analyzeContractResult uuid title content src now) "analysisDate"
      = some (JsValue.date now) ∧
    ((∀ kv ∈ src, kv.1 ≠ "id") →
      getField (analyzeContractResult uuid title content src now) "id"
        = some (JsValue.str uuid)) ∧
    ((src.map Prod.fst).Nodup → ∀ w, ("id", w) ∈ src →
      getField (analyzeContractResult uuid title content src now) "id" = some w) := by
  refine ⟨?_, ?_, ?_⟩
  · rw [analyzeContractResult]
    exact getField_setKey_self _ _ _
  · intro h
    rw [analyzeContractResult, getField_setKey_ne _ _ (by decide),
      getField_spread_not_mem src _ h]
    rfl
  · intro hnd w hmem
    rw [analyzeContractResult, getField_setKey_ne _ _ (by decide),
      getField_spread_mem src _ hnd hmem]

/-- Witness for C9 at a candidate that carries an `id`. -/
theorem analyzeContract_stamping_witness :
    getField (analyzeContractResult "fresh" "T" "C" [("id", JsValue.str "cand")] 3)
      "analysisDate" = some (JsValue.date 3) ∧
    getField (analyzeContractResult "fresh" "T" "C" [("id", JsValue.str "cand")] 3)
      "id" = some (JsValue.str "cand") := by
  have h := analyzeContract_stamping "fresh" "T" "C" [("id", JsValue.str "cand")] 3
  exact ⟨h.1, h.2.2 (by decide) (JsValue.str "cand") (List.mem_cons_self _ _)⟩
